import Mathlib

/-!
Verification development for the dynamic metric registry of the pingpong
metrics server (src/app/pingpong.go).  The Go program keeps a process-wide
map from metric name to a registered Prometheus counter vector
(metricsMapPrometheus), creates families on first use in createNewMetric,
performs unit increments in updateMetric, and renders exposition lines in
createMetricLine.  The definitions below are a shallow embedding of that
code: Go maps become association lists, float64 values become exact
fractions, and the behaviour of the Prometheus client library at the
boundary (descriptor validation in NewDesc and Register, label lookup in
GetMetricWith, counter Add and Inc) is modelled by its documented
semantics.
-/

namespace Pingpong

/-- Exact numeric value, standing for a float64: an integer numerator over
a positive natural denominator (always a power of ten in every value the
parser produces, so denominators stay positive under all operations used
here).  The claims under study use values a float64 represents exactly, so
exact fraction arithmetic agrees with the float64 arithmetic of the code
on them. -/
structure Value where
  num : ℤ
  den : ℕ
deriving DecidableEq

/-- The value of an integer. -/
def intVal (n : ℤ) : Value := ⟨n, 1⟩

/-- Addition of values, the model of adding two float64 numbers as done by
the counter Add and Inc primitives. -/
def Value.add (a b : Value) : Value :=
  ⟨a.num * b.den + b.num * a.den, a.den * b.den⟩

/-- A value is nonnegative; Prometheus counters reject (panic on) negative
increments, so every value a counter ever absorbs satisfies this. -/
def Value.Nonneg (a : Value) : Prop := 0 ≤ a.num

/-- A value denotes the integer n. -/
def Value.eqInt (a : Value) (n : ℤ) : Prop := a.num = n * (a.den : ℤ)

instance (a : Value) : Decidable a.Nonneg :=
  inferInstanceAs (Decidable (0 ≤ a.num))

instance (a : Value) (n : ℤ) : Decidable (a.eqInt n) :=
  inferInstanceAs (Decidable (a.num = n * (a.den : ℤ)))

/-- Byte-wise comparison of two character lists, true when the first is
less than or equal to the second; this is the order Go uses to compare
strings (UTF-8 bytes order exactly like code points). -/
def charListLe : List Char → List Char → Bool
  | [], _ => true
  | _ :: _, [] => false
  | a :: as, b :: bs =>
    if a.toNat < b.toNat then true
    else if b.toNat < a.toNat then false
    else charListLe as bs

/-- Go string comparison as a Bool. -/
def strLeB (a b : String) : Bool := charListLe a.data b.data

/-- Go string comparison as a relation, used by the model of
sort.Strings. -/
def strLe (a b : String) : Prop := strLeB a b = true

instance : DecidableRel strLe := fun a b => Bool.decEq (strLeB a b) true

/-- Model of sort.Strings: ascending sort in the byte-wise string order. -/
def sortStrings (l : List String) : List String :=
  List.insertionSort strLe l

/-- Model of getKeys in pingpong.go: the keys of a label map, sorted. -/
def getKeys (labels : List (String × String)) : List String :=
  sortStrings (labels.map Prod.fst)

/-- Key order on label pairs. -/
def pairLeKey (p q : String × String) : Prop := strLe p.1 q.1

instance : DecidableRel pairLeKey := fun p q => Bool.decEq (strLeB p.1 q.1) true

/-- Canonical form of a label-value map: pairs sorted by key.  Two
association lists denoting the same Go map have the same canonical form,
so this is the key under which the Prometheus CounterVec stores the child
counter of a given label-value vector. -/
def canon (labels : List (String × String)) : List (String × String) :=
  List.insertionSort pairLeKey labels

/-- Model of the Go struct Metric in pingpong.go: one JSON data point with
a label map, an optional timestamp (never read by the registry code, so it
is omitted) and a value string.  The Go map of labels becomes an
association list whose keys are distinct in every input a JSON object can
produce. -/
structure Metric where
  labels : List (String × String)
  value : String
deriving DecidableEq

/-- Model of the Go struct MetricInfo: a metric family as decoded from
JSON.  The help and type fields are never consulted by createNewMetric or
updateMetric apart from a constant help format string, so only the fields
the registry logic reads are kept. -/
structure MetricInfo where
  name : String
  metrics : List Metric
deriving DecidableEq

/-- Model of CustomMetricPrometheus: the stored label schema (meta.Labels,
the sorted label keys fixed at registration) together with the live
counters of the underlying CounterVec, keyed by the canonical sorted
label-value vector. -/
structure FamilyData where
  labelNames : List String
  counters : List (List (String × String) × Value)
deriving DecidableEq

/-- Model of the mutable process state read by the handlers: the names
already present in the Prometheus registry (registering a duplicate name
fails), and metricsMapPrometheus as an association list. -/
structure RegState where
  registered : List String
  fams : List (String × FamilyData)
deriving DecidableEq

/-- Names registered at server start by NewServer: the ping counter plus
the standard process collector metrics.  Create requests reusing one of
these names fail at Register with a duplicate-registration error. -/
def initialRegistered : List String :=
  ["ping_request_count", "process_cpu_seconds_total", "process_open_fds",
   "process_max_fds", "process_virtual_memory_bytes",
   "process_virtual_memory_max_bytes", "process_resident_memory_bytes",
   "process_start_time_seconds"]

/-- The registry state right after NewServer: no custom families yet. -/
def initialState : RegState :=
  { registered := initialRegistered, fams := [] }

/-- Association list lookup, the model of a Go map read. -/
def alistLookup {α β : Type} [DecidableEq α] : List (α × β) → α → Option β
  | [], _ => none
  | (k, v) :: rest, a => if k = a then some v else alistLookup rest a

/-- Association list update, the model of a Go map write: replace the
binding if the key is present, append it otherwise. -/
def alistInsert {α β : Type} [DecidableEq α] : List (α × β) → α → β → List (α × β)
  | [], a, b => [(a, b)]
  | (k, v) :: rest, a, b =>
    if k = a then (a, b) :: rest else (k, v) :: alistInsert rest a b

/-- Model of the metric-name grammar enforced by the Prometheus client
library when createNewMetric builds a descriptor:
a name matches [a-zA-Z_:][a-zA-Z0-9_:]*. -/
def isValidMetricName (s : String) : Bool :=
  match s.data with
  | [] => false
  | c :: cs =>
    (c.isAlpha || c = '_' || c = ':') &&
      cs.all (fun d => d.isAlphanum || d = '_' || d = ':')

/-- Model of the label-name grammar of the Prometheus data model:
a label name matches [a-zA-Z_][a-zA-Z0-9_]*. -/
def isValidLabelName (s : String) : Bool :=
  match s.data with
  | [] => false
  | c :: cs =>
    (c.isAlpha || c = '_') && cs.all (fun d => d.isAlphanum || d = '_')

/-- True when a string begins with the reserved double underscore. -/
def startsWithUnderscores (s : String) : Bool :=
  match s.data with
  | '_' :: '_' :: _ => true
  | _ => false

/-- Model of checkLabelName in the Prometheus client library: a usable
label key is a valid label name that does not begin with the reserved
double underscore. -/
def checkLabelName (s : String) : Bool :=
  isValidLabelName s && !startsWithUnderscores s

/-- Modelled from the spec: the token validator the specification claims is
applied to metric names and label keys, true iff the string matches
[a-zA-Z_][a-zA-Z0-9_]*.  The repository itself contains no such function;
this definition follows the words of spec section 4.1 and exists to be
compared against the validation the code actually performs. -/
def validateToken (s : String) : Bool :=
  isValidLabelName s

/-- Model of the descriptor validity check performed by NewDesc when
createNewMetric constructs a new CounterVec: the metric name must match
the metric-name grammar, every variable label must pass checkLabelName,
and the label names must be distinct. -/
def validDesc (name : String) (labelNames : List String) : Bool :=
  isValidMetricName name && labelNames.all checkLabelName &&
    decide labelNames.Nodup

/-- Numeric value of an ASCII digit character. -/
def digitVal (c : Char) : Nat := c.toNat - '0'.toNat

/-- Natural number denoted by a list of ASCII digits. -/
def digitsToNat (l : List Char) : Nat :=
  l.foldl (fun n c => 10 * n + digitVal c) 0

/-- Model of strconv.ParseFloat as used on the value field: an optional
sign, decimal digits with an optional fraction, and an optional decimal
exponent, read with exact fraction semantics (the claims under study use
values that a float64 represents exactly, so the binary64 rounding step of
the real parser is the identity on them).  Any other string is a parse
failure and the sample is skipped by the Go loop. -/
def parseValue (s : String) : Option Value :=
  let chars := s.data
  let signRest : ℤ × List Char :=
    match chars with
    | '-' :: cs => (-1, cs)
    | '+' :: cs => (1, cs)
    | cs => (1, cs)
  let sign := signRest.1
  let rest := signRest.2
  let intPart := rest.takeWhile Char.isDigit
  let rest2 := rest.dropWhile Char.isDigit
  let fracRest : List Char × List Char :=
    match rest2 with
    | '.' :: cs => (cs.takeWhile Char.isDigit, cs.dropWhile Char.isDigit)
    | cs => ([], cs)
  let fracPart := fracRest.1
  let rest3 := fracRest.2
  if intPart.length + fracPart.length = 0 then none
  else
    let mant : Value :=
      ⟨sign * (digitsToNat (intPart ++ fracPart) : ℤ), 10 ^ fracPart.length⟩
    match rest3 with
    | [] => some mant
    | e :: cs =>
      if e = 'e' ∨ e = 'E' then
        let expRest : Bool × List Char :=
          match cs with
          | '-' :: ds => (true, ds)
          | '+' :: ds => (false, ds)
          | ds => (false, ds)
        let ds := expRest.2.takeWhile Char.isDigit
        let rest4 := expRest.2.dropWhile Char.isDigit
        if ds.length = 0 ∨ rest4 ≠ [] then none
        else if expRest.1 then
          some ⟨mant.num, mant.den * 10 ^ digitsToNat ds⟩
        else
          some ⟨mant.num * (10 : ℤ) ^ digitsToNat ds, mant.den⟩
      else none

/-- Rounding of a value to the nearest integer with ties to even, the
rounding Go fmt performs when formatting a float64 with the fixed-point
verb of precision zero. -/
def roundHalfEven (v : Value) : ℤ :=
  let f := Int.fdiv v.num v.den
  let rem := v.num - f * (v.den : ℤ)
  if 2 * rem < (v.den : ℤ) then f
  else if (v.den : ℤ) < 2 * rem then f + 1
  else if f % 2 = 0 then f else f + 1

/-- Model of fmt.Sprintf with the fixed-point verb of precision zero, as
applied to the confirmation value in createNewMetric and updateMetric:
the decimal rendering of the value rounded to an integer, ties to even. -/
def fmtF0 (v : Value) : String :=
  toString (roundHalfEven v)

/-- Model of the escaping the fmt quoting verb applies to one character of
a label value: backslash escapes for the quote, the backslash and the
common control characters, all other printable characters unchanged. -/
def quoteChar (c : Char) : String :=
  if c = '"' then "\\\""
  else if c = '\\' then "\\\\"
  else if c = '\n' then "\\n"
  else if c = '\t' then "\\t"
  else if c = '\r' then "\\r"
  else String.singleton c

/-- Model of the fmt quoting verb on a label value: the escaped characters
wrapped in double quotes. -/
def quoteGo (s : String) : String :=
  "\"" ++ String.join (s.data.map quoteChar) ++ "\""

/-- One rendered label pair, exactly as built in the loop of
createMetricLine: the key, an equals sign, and the quoted value. -/
def renderPair (kv : String × String) : String :=
  kv.1 ++ "=" ++ quoteGo kv.2

/-- Model of createMetricLine in pingpong.go: render every label pair, sort
the rendered pair strings with sort.Strings, and join them with commas
inside a brace block; a non-empty value string follows the block after a
space.  Note that the sort is over the full rendered pair strings, not
over the label keys. -/
def createMetricLine (name : String) (labels : List (String × String))
    (value : String) : String :=
  let pairs := sortStrings (labels.map renderPair)
  if value ≠ "" then
    name ++ "\x7b" ++ String.intercalate "," pairs ++ "\x7d " ++ value ++ "\n"
  else
    name ++ "\x7b" ++ String.intercalate "," pairs ++ "\x7d" ++ "\n"

/-- Rendering that follows the words of the specification for the encoder:
label pairs listed in ascending order of the label key (not of the whole
rendered pair string).  This definition exists only to be compared with
createMetricLine, which is the translation of the source. -/
def createMetricLineKeySorted (name : String) (labels : List (String × String))
    (value : String) : String :=
  let pairs := (canon labels).map renderPair
  if value ≠ "" then
    name ++ "\x7b" ++ String.intercalate "," pairs ++ "\x7d " ++ value ++ "\n"
  else
    name ++ "\x7b" ++ String.intercalate "," pairs ++ "\x7d" ++ "\n"

/-- The failure modes of the registry code, mirroring the error kinds the
specification names.  The code only logs these conditions; the tag records
which condition caused a sample or family to be skipped.
AlreadyRegistered is the duplicate-registration failure of the Prometheus
registry, a condition the specification does not name. -/
inductive MetricError
  | InvalidIdentifier
  | LabelSetMismatch
  | UnknownMetric
  | ValueParseError
  | AlreadyRegistered
deriving DecidableEq

/-- Model of lines 426 to 444 of pingpong.go: when the name is not yet in
metricsMapPrometheus, build a CounterVec whose variable labels are the
current label keys and register it.  Registration fails when the
descriptor is invalid (the error recorded by NewDesc) or when the name is
already present in the Prometheus registry; on failure the map is left
untouched and the caller skips the sample. -/
def ensureFamily (s : RegState) (name : String) (labelNames : List String) :
    RegState × Option MetricError :=
  match alistLookup s.fams name with
  | some _ => (s, none)
  | none =>
    if validDesc name labelNames = false then (s, some .InvalidIdentifier)
    else if name ∈ s.registered then (s, some .AlreadyRegistered)
    else
      ({ registered := name :: s.registered,
         fams := alistInsert s.fams name ⟨labelNames, []⟩ }, none)

/-- Model of GetMetricWith followed by Add or Inc: look up or create the
child counter of the given label-value vector and add d to it.  Callers
only reach this after the label keys were checked against the stored
schema, with the family present. -/
def bumpCounter (s : RegState) (name : String)
    (labels : List (String × String)) (d : Value) : RegState :=
  match alistLookup s.fams name with
  | none => s
  | some fam =>
    let key := canon labels
    let old := (alistLookup fam.counters key).getD (intVal 0)
    { s with
      fams := alistInsert s.fams name
        { fam with counters := alistInsert fam.counters key (old.add d) } }

/-- The current value of the counter a label-value vector selects inside a
family, the observation getMetricValue makes. -/
def counterOf (s : RegState) (name : String)
    (labels : List (String × String)) : Option Value :=
  (alistLookup s.fams name).bind fun fam => alistLookup fam.counters (canon labels)

/-- Model of one iteration of the loop of createNewMetric (lines 417 to
461 of pingpong.go): parse the value string (parse failure skips the
sample); register the family if the name is new (registration failure
skips the sample); look up the child counter with GetMetricWith, which
fails exactly when the label-key set differs from the stored schema
(that failure skips the sample); otherwise add the parsed value to the
counter and render the confirmation line with the value formatted at
precision zero.  The result is the next state, the confirmation line if
the sample was recorded, and the failure kind if it was skipped. -/
def processCreateSample (s : RegState) (name : String) (item : Metric) :
    RegState × Option String × Option MetricError :=
  match parseValue item.value with
  | none => (s, none, some .ValueParseError)
  | some v =>
    match ensureFamily s name (getKeys item.labels) with
    | (_, some e) => (s, none, some e)
    | (s1, none) =>
      match alistLookup s1.fams name with
      | none => (s1, none, some .InvalidIdentifier)
      | some fam =>
        if getKeys item.labels = fam.labelNames then
          (bumpCounter s1 name item.labels v,
           some (createMetricLine name item.labels (fmtF0 v)), none)
        else (s1, none, some .LabelSetMismatch)

/-- The whole loop of createNewMetric over the samples of one family,
threading the state and collecting the confirmation lines and the skipped
samples in order. -/
def createLoop (s : RegState) (name : String) :
    List Metric → RegState × List String × List MetricError
  | [] => (s, [], [])
  | item :: rest =>
    let step := processCreateSample s name item
    let tail := createLoop step.1 name rest
    (tail.1, step.2.1.toList ++ tail.2.1, step.2.2.toList ++ tail.2.2)

/-- Model of createNewMetric in pingpong.go. -/
def createNewMetric (s : RegState) (f : MetricInfo) :
    RegState × List String × List MetricError :=
  createLoop s f.name f.metrics

/-- Model of one iteration of the loop of updateMetric (lines 475 to 491
of pingpong.go): GetMetricWith fails exactly when the label-key set
differs from the stored schema of the family fetched before the loop
(that failure skips the sample); otherwise increment the counter by one
and render a line carrying the post-increment total read back by
getMetricValue, formatted at precision zero. -/
def processUpdateSample (s : RegState) (name : String)
    (labelNames : List String) (item : Metric) :
    RegState × Option String × Option MetricError :=
  if getKeys item.labels = labelNames then
    let total := ((counterOf s name item.labels).getD (intVal 0)).add (intVal 1)
    (bumpCounter s name item.labels (intVal 1),
     some (createMetricLine name item.labels (fmtF0 total)), none)
  else (s, none, some .LabelSetMismatch)

/-- The whole loop of updateMetric over the samples of one family. -/
def updateLoop (s : RegState) (name : String) (labelNames : List String) :
    List Metric → RegState × List String × List MetricError
  | [] => (s, [], [])
  | item :: rest =>
    let step := processUpdateSample s name labelNames item
    let tail := updateLoop step.1 name labelNames rest
    (tail.1, step.2.1.toList ++ tail.2.1, step.2.2.toList ++ tail.2.2)

/-- Model of updateMetric in pingpong.go: when the name is not in
metricsMapPrometheus the whole family fails (the code logs that the
metric was not found and returns nil) and the state is untouched;
otherwise every sample is processed against the schema of the family
fetched once before the loop. -/
def updateMetric (s : RegState) (f : MetricInfo) :
    RegState × List String × List MetricError :=
  match alistLookup s.fams f.name with
  | none => (s, [], [.UnknownMetric])
  | some fam => updateLoop s f.name fam.labelNames f.metrics

/-- Model of the response assembly of createHandler (lines 293 to 301 of
pingpong.go): for every family of the request, in order, write the banner
line, then the confirmation lines of the recorded samples, then a blank
line.  Nothing else is written: the failures collected above are only
logged on the server. -/
def createResponse (s : RegState) :
    List MetricInfo → RegState × String
  | [] => (s, "")
  | f :: fs =>
    let step := createNewMetric s f
    let tail := createResponse step.1 fs
    (tail.1,
     "created metric...\n" ++ String.join step.2.1 ++ "\n" ++ tail.2)

theorem alistLookup_alistInsert_self {α β : Type} [DecidableEq α]
    (l : List (α × β)) (k : α) (b : β) :
    alistLookup (alistInsert l k b) k = some b := by
  induction l with
  | nil => simp [alistInsert, alistLookup]
  | cons kv rest ih =>
    obtain ⟨k0, v0⟩ := kv
    by_cases h : k0 = k
    · simp [alistInsert, h, alistLookup]
    · simp [alistInsert, h, alistLookup, ih]

theorem alistLookup_alistInsert_ne {α β : Type} [DecidableEq α]
    (l : List (α × β)) (k a : α) (b : β) (h : a ≠ k) :
    alistLookup (alistInsert l k b) a = alistLookup l a := by
  induction l with
  | nil => simp [alistInsert, alistLookup, Ne.symm h]
  | cons kv rest ih =>
    obtain ⟨k0, v0⟩ := kv
    by_cases h0 : k0 = k
    · subst h0
      simp [alistInsert, alistLookup, Ne.symm h]
    · simp only [alistInsert, if_neg h0]
      by_cases h1 : k0 = a
      · simp [alistLookup, h1]
      · simp [alistLookup, h1, ih]

theorem char_toNat_inj {a b : Char} (h : a.toNat = b.toNat) : a = b :=
  Char.ext (UInt32.ext h)

theorem charListLe_refl : ∀ l, charListLe l l = true
  | [] => rfl
  | a :: as => by
    have ih := charListLe_refl as
    simp [charListLe, ih]

theorem charListLe_total : ∀ l1 l2, charListLe l1 l2 = true ∨ charListLe l2 l1 = true
  | [], _ => Or.inl rfl
  | _ :: _, [] => Or.inr rfl
  | a :: as, b :: bs => by
    rcases Nat.lt_trichotomy a.toNat b.toNat with h | h | h
    · exact Or.inl (by simp [charListLe, h])
    · have hab : a = b := char_toNat_inj h
      subst hab
      rcases charListLe_total as bs with ih | ih
      · exact Or.inl (by simp [charListLe, ih])
      · exact Or.inr (by simp [charListLe, ih])
    · exact Or.inr (by simp [charListLe, h])

theorem charListLe_trans : ∀ l1 l2 l3, charListLe l1 l2 = true →
    charListLe l2 l3 = true → charListLe l1 l3 = true
  | [], _, _, _, _ => rfl
  | _ :: _, [], _, h1, _ => by simp [charListLe] at h1
  | _ :: _, _ :: _, [], _, h2 => by simp [charListLe] at h2
  | a :: as, b :: bs, c :: cs, h1, h2 => by
    simp only [charListLe] at h1 h2 ⊢
    rcases Nat.lt_trichotomy a.toNat b.toNat with hab | hab | hab
    · rcases Nat.lt_trichotomy b.toNat c.toNat with hbc | hbc | hbc
      · simp [Nat.lt_trans hab hbc]
      · simp [show a.toNat < c.toNat from hbc ▸ hab]
      · rw [if_neg (by omega), if_pos hbc] at h2
        simp at h2
    · have hab2 : a = b := char_toNat_inj hab
      subst hab2
      rw [if_neg (by omega), if_neg (by omega)] at h1
      rcases Nat.lt_trichotomy a.toNat c.toNat with hac | hac | hac
      · simp [hac]
      · rw [if_neg (by omega), if_neg (by omega)] at h2
        rw [if_neg (by omega), if_neg (by omega)]
        exact charListLe_trans as bs cs h1 h2
      · rw [if_neg (by omega), if_pos hac] at h2
        simp at h2
    · rw [if_neg (by omega), if_pos hab] at h1
      simp at h1

theorem charListLe_antisymm : ∀ l1 l2, charListLe l1 l2 = true →
    charListLe l2 l1 = true → l1 = l2
  | [], [], _, _ => rfl
  | [], _ :: _, _, h2 => by simp [charListLe] at h2
  | _ :: _, [], h1, _ => by simp [charListLe] at h1
  | a :: as, b :: bs, h1, h2 => by
    simp only [charListLe] at h1 h2
    rcases Nat.lt_trichotomy a.toNat b.toNat with hab | hab | hab
    · rw [if_neg (by omega), if_pos hab] at h2
      simp at h2
    · have hab2 : a = b := char_toNat_inj hab
      subst hab2
      rw [if_neg (by omega), if_neg (by omega)] at h1 h2
      rw [charListLe_antisymm as bs h1 h2]
    · rw [if_neg (by omega), if_pos hab] at h1
      simp at h1

theorem string_data_inj {a b : String} (h : a.data = b.data) : a = b := by
  cases a
  cases b
  exact congrArg String.mk h

instance : IsTotal String strLe :=
  ⟨fun a b => charListLe_total a.data b.data⟩

instance : IsTrans String strLe :=
  ⟨fun a b c => charListLe_trans a.data b.data c.data⟩

instance : IsAntisymm String strLe :=
  ⟨fun a b h1 h2 => string_data_inj (charListLe_antisymm a.data b.data h1 h2)⟩

theorem sortStrings_sorted (l : List String) :
    List.Sorted strLe (sortStrings l) :=
  List.sorted_insertionSort strLe l

theorem sortStrings_perm (l : List String) :
    List.Perm (sortStrings l) l :=
  List.perm_insertionSort strLe l

theorem sortStrings_congr {l l' : List String} (h : List.Perm l l') :
    sortStrings l = sortStrings l' :=
  List.eq_of_perm_of_sorted
    ((sortStrings_perm l).trans (h.trans (sortStrings_perm l').symm))
    (sortStrings_sorted l) (sortStrings_sorted l')

theorem isSome_of_map_eq_some {α β : Type} {x : Option α} {f : α → β} {y : β}
    (h : x.map f = some y) : x.isSome = true := by
  cases x
  · exact Option.noConfusion h
  · rfl

theorem bumpCounter_labelNames (s : RegState) (name : String)
    (labels : List (String × String)) (d : Value) (n : String) :
    (alistLookup (bumpCounter s name labels d).fams n).map FamilyData.labelNames =
      (alistLookup s.fams n).map FamilyData.labelNames := by
  cases h : alistLookup s.fams name with
  | none => simp [bumpCounter, h]
  | some fam =>
    simp only [bumpCounter, h]
    by_cases hn : n = name
    · subst hn
      rw [alistLookup_alistInsert_self, h]
      rfl
    · rw [alistLookup_alistInsert_ne _ _ _ _ hn]

theorem bumpCounter_counterOf (s : RegState) (name : String)
    (labels : List (String × String)) (d : Value) (fam : FamilyData)
    (h : alistLookup s.fams name = some fam) :
    counterOf (bumpCounter s name labels d) name labels =
      some (((counterOf s name labels).getD (intVal 0)).add d) := by
  simp only [bumpCounter, counterOf, h]
  rw [alistLookup_alistInsert_self]
  simp only [Option.some_bind]
  rw [alistLookup_alistInsert_self]

theorem processCreateSample_parseFail (s : RegState) (name : String) (item : Metric)
    (h : parseValue item.value = none) :
    processCreateSample s name item = (s, none, some MetricError.ValueParseError) := by
  simp [processCreateSample, h]

theorem processCreateSample_existing_mismatch (s : RegState) (name : String)
    (fam : FamilyData) (item : Metric) (v : Value)
    (h : alistLookup s.fams name = some fam)
    (hv : parseValue item.value = some v)
    (hk : getKeys item.labels ≠ fam.labelNames) :
    processCreateSample s name item = (s, none, some MetricError.LabelSetMismatch) := by
  simp [processCreateSample, ensureFamily, h, hv, hk]

theorem processCreateSample_existing_match (s : RegState) (name : String)
    (fam : FamilyData) (item : Metric) (v : Value)
    (h : alistLookup s.fams name = some fam)
    (hv : parseValue item.value = some v)
    (hk : getKeys item.labels = fam.labelNames) :
    processCreateSample s name item =
      (bumpCounter s name item.labels v,
       some (createMetricLine name item.labels (fmtF0 v)), none) := by
  simp [processCreateSample, ensureFamily, h, hv, hk]

theorem processCreateSample_fresh (s : RegState) (name : String) (item : Metric)
    (v : Value)
    (h : alistLookup s.fams name = none)
    (hr : name ∉ s.registered)
    (hd : validDesc name (getKeys item.labels) = true)
    (hv : parseValue item.value = some v) :
    processCreateSample s name item =
      (bumpCounter
        { registered := name :: s.registered,
          fams := alistInsert s.fams name ⟨getKeys item.labels, []⟩ }
        name item.labels v,
       some (createMetricLine name item.labels (fmtF0 v)), none) := by
  simp [processCreateSample, ensureFamily, h, hv, hd, hr,
    alistLookup_alistInsert_self]

theorem processCreateSample_invalidName (s : RegState) (name : String) (item : Metric)
    (hn : isValidMetricName name = false)
    (h : alistLookup s.fams name = none) :
    (processCreateSample s name item).1 = s ∧
      (processCreateSample s name item).2.1 = none := by
  cases hv : parseValue item.value with
  | none => simp [processCreateSample, hv]
  | some v => simp [processCreateSample, ensureFamily, h, hv, validDesc, hn]

theorem processCreateSample_labelNames (s : RegState) (name : String) (item : Metric)
    (n : String) (fam : FamilyData)
    (h : alistLookup s.fams n = some fam) :
    (alistLookup (processCreateSample s name item).1.fams n).map FamilyData.labelNames =
      some fam.labelNames := by
  cases hv : parseValue item.value with
  | none => simp [processCreateSample, hv, h]
  | some v =>
    cases hm : alistLookup s.fams name with
    | some fam0 =>
      by_cases hk : getKeys item.labels = fam0.labelNames
      · rw [processCreateSample_existing_match s name fam0 item v hm hv hk]
        show (alistLookup (bumpCounter s name item.labels v).fams n).map _ = _
        rw [bumpCounter_labelNames, h]
        rfl
      · rw [processCreateSample_existing_mismatch s name fam0 item v hm hv hk]
        simp [h]
    | none =>
      have hne : n ≠ name := by
        intro he
        rw [he, hm] at h
        exact Option.noConfusion h
      cases hd : validDesc name (getKeys item.labels) with
      | false => simp [processCreateSample, ensureFamily, hm, hv, hd, h]
      | true =>
        by_cases hr : name ∈ s.registered
        · simp [processCreateSample, ensureFamily, hm, hv, hd, hr, h]
        · rw [processCreateSample_fresh s name item v hm hr hd hv]
          show (alistLookup (bumpCounter _ name item.labels v).fams n).map _ = _
          rw [bumpCounter_labelNames]
          show (alistLookup (alistInsert s.fams name _) n).map _ = _
          rw [alistLookup_alistInsert_ne _ _ _ _ hne, h]
          rfl

theorem createLoop_labelNames : ∀ (ms : List Metric) (s : RegState) (name n : String)
    (fam : FamilyData), alistLookup s.fams n = some fam →
    (alistLookup (createLoop s name ms).1.fams n).map FamilyData.labelNames =
      some fam.labelNames
  | [], s, name, n, fam, h => by simp [createLoop, h]
  | item :: rest, s, name, n, fam, h => by
    have h1 := processCreateSample_labelNames s name item n fam h
    cases hl : alistLookup (processCreateSample s name item).1.fams n with
    | none =>
      rw [hl] at h1
      exact Option.noConfusion h1
    | some fam1 =>
      rw [hl] at h1
      have h2 : fam1.labelNames = fam.labelNames := by
        simpa using h1
      simp only [createLoop]
      rw [← h2]
      exact createLoop_labelNames rest _ name n fam1 hl

theorem createLoop_invalidName : ∀ (ms : List Metric) (s : RegState) (name : String),
    isValidMetricName name = false → alistLookup s.fams name = none →
    (createLoop s name ms).1 = s ∧ (createLoop s name ms).2.1 = []
  | [], _, _, _, _ => ⟨rfl, rfl⟩
  | item :: rest, s, name, hn, h => by
    obtain ⟨hs, hl⟩ := processCreateSample_invalidName s name item hn h
    obtain ⟨ihs, ihl⟩ :=
      createLoop_invalidName rest (processCreateSample s name item).1 name hn
        (by rw [hs]; exact h)
    constructor
    · simp only [createLoop]
      rw [ihs, hs]
    · simp only [createLoop]
      rw [hl, ihl]
      rfl

theorem processCreateSample_one (s : RegState) (name : String) (item : Metric) :
    (processCreateSample s name item).2.1.toList.length +
      (processCreateSample s name item).2.2.toList.length = 1 := by
  unfold processCreateSample
  repeat' first | rfl | split

theorem processUpdateSample_one (s : RegState) (name : String)
    (labelNames : List String) (item : Metric) :
    (processUpdateSample s name labelNames item).2.1.toList.length +
      (processUpdateSample s name labelNames item).2.2.toList.length = 1 := by
  unfold processUpdateSample
  split <;> rfl

theorem createLoop_count : ∀ (ms : List Metric) (s : RegState) (name : String),
    (createLoop s name ms).2.1.length + (createLoop s name ms).2.2.length = ms.length
  | [], _, _ => rfl
  | item :: rest, s, name => by
    have h1 := processCreateSample_one s name item
    have h2 := createLoop_count rest (processCreateSample s name item).1 name
    show ((processCreateSample s name item).2.1.toList ++
          (createLoop (processCreateSample s name item).1 name rest).2.1).length +
        ((processCreateSample s name item).2.2.toList ++
          (createLoop (processCreateSample s name item).1 name rest).2.2).length =
        rest.length + 1
    rw [List.length_append, List.length_append]
    omega

theorem updateLoop_count : ∀ (ms : List Metric) (s : RegState) (name : String)
    (labelNames : List String),
    (updateLoop s name labelNames ms).2.1.length +
      (updateLoop s name labelNames ms).2.2.length = ms.length
  | [], _, _, _ => rfl
  | item :: rest, s, name, labelNames => by
    have h1 := processUpdateSample_one s name labelNames item
    have h2 := updateLoop_count rest (processUpdateSample s name labelNames item).1
      name labelNames
    show ((processUpdateSample s name labelNames item).2.1.toList ++
          (updateLoop (processUpdateSample s name labelNames item).1 name labelNames
            rest).2.1).length +
        ((processUpdateSample s name labelNames item).2.2.toList ++
          (updateLoop (processUpdateSample s name labelNames item).1 name labelNames
            rest).2.2).length =
        rest.length + 1
    rw [List.length_append, List.length_append]
    omega

/-- Claim C1, counterexample to the claim as stated: in a Create request
whose first sample has the unparseable value string "oops" and label key
"a", and whose second sample has value "1" and label key "b", the family
is registered with label set computed from the second sample, not with the
key set of the first sample of the request. -/
theorem claim1_firstSample_cex :
    (alistLookup (createNewMetric initialState
        ⟨"m", [⟨[("a", "x")], "oops"⟩, ⟨[("b", "y")], "1"⟩]⟩).1.fams "m").map
      FamilyData.labelNames = some ["b"] ∧
    getKeys [("a", "x")] = ["a"] ∧ (["b"] : List String) ≠ ["a"] := by decide

/-- Claim C1 (amended): on Create, a new family's label set is the key set
of the first sample whose value parses and whose identifiers pass
descriptor validation (samples failing the value parse are skipped before
any registration, so they contribute no schema); once a family is stored,
a value-parseable Create sample whose label-key set is not exactly the
stored label set is rejected as a label-set mismatch and the request
behaves as if that sample were absent, on an unchanged registry state; an
Update sample whose label-key set differs from the schema fetched for the
family is likewise rejected with the state unchanged while the remaining
samples proceed. -/
theorem claim1_schemaConsistency :
    (∀ (s : RegState) (name : String) (item : Metric) (rest : List Metric) (v : Value),
      parseValue item.value = some v →
      alistLookup s.fams name = none →
      name ∉ s.registered →
      validDesc name (getKeys item.labels) = true →
      (alistLookup (createLoop s name (item :: rest)).1.fams name).map
        FamilyData.labelNames = some (getKeys item.labels)) ∧
    (∀ (s : RegState) (name : String) (fam : FamilyData) (item : Metric)
        (rest : List Metric) (v : Value),
      alistLookup s.fams name = some fam →
      parseValue item.value = some v →
      getKeys item.labels ≠ fam.labelNames →
      processCreateSample s name item = (s, none, some MetricError.LabelSetMismatch) ∧
      createLoop s name (item :: rest) =
        ((createLoop s name rest).1, (createLoop s name rest).2.1,
          MetricError.LabelSetMismatch :: (createLoop s name rest).2.2)) ∧
    (∀ (s : RegState) (name : String) (labelNames : List String) (item : Metric)
        (rest : List Metric),
      getKeys item.labels ≠ labelNames →
      processUpdateSample s name labelNames item =
        (s, none, some MetricError.LabelSetMismatch) ∧
      updateLoop s name labelNames (item :: rest) =
        ((updateLoop s name labelNames rest).1,
          (updateLoop s name labelNames rest).2.1,
          MetricError.LabelSetMismatch :: (updateLoop s name labelNames rest).2.2)) := by
  refine ⟨?_, ?_, ?_⟩
  · intro s name item rest v hv h hr hd
    have hstep := processCreateSample_fresh s name item v h hr hd hv
    have hmap : (alistLookup (processCreateSample s name item).1.fams name).map
        FamilyData.labelNames = some (getKeys item.labels) := by
      rw [hstep]
      show (alistLookup (bumpCounter _ name item.labels v).fams name).map _ = _
      rw [bumpCounter_labelNames]
      show (alistLookup (alistInsert s.fams name ⟨getKeys item.labels, []⟩) name).map
        FamilyData.labelNames = _
      rw [alistLookup_alistInsert_self]
      rfl
    cases hl : alistLookup (processCreateSample s name item).1.fams name with
    | none =>
      rw [hl] at hmap
      exact Option.noConfusion hmap
    | some fam1 =>
      rw [hl] at hmap
      have h2 : fam1.labelNames = getKeys item.labels := by simpa using hmap
      show (alistLookup (createLoop (processCreateSample s name item).1 name
        rest).1.fams name).map FamilyData.labelNames = _
      rw [createLoop_labelNames rest _ name name fam1 hl, h2]
  · intro s name fam item rest v h hv hk
    have hstep := processCreateSample_existing_mismatch s name fam item v h hv hk
    refine ⟨hstep, ?_⟩
    show ((createLoop (processCreateSample s name item).1 name rest).1,
        (processCreateSample s name item).2.1.toList ++
          (createLoop (processCreateSample s name item).1 name rest).2.1,
        (processCreateSample s name item).2.2.toList ++
          (createLoop (processCreateSample s name item).1 name rest).2.2) = _
    rw [hstep]
    rfl
  · intro s name labelNames item rest hk
    have hstep : processUpdateSample s name labelNames item =
        (s, none, some MetricError.LabelSetMismatch) := by
      simp [processUpdateSample, hk]
    refine ⟨hstep, ?_⟩
    show ((updateLoop (processUpdateSample s name labelNames item).1 name
          labelNames rest).1,
        (processUpdateSample s name labelNames item).2.1.toList ++
          (updateLoop (processUpdateSample s name labelNames item).1 name
            labelNames rest).2.1,
        (processUpdateSample s name labelNames item).2.2.toList ++
          (updateLoop (processUpdateSample s name labelNames item).1 name
            labelNames rest).2.2) = _
    rw [hstep]
    rfl

/-- Witness for claim C1: the schema-consistency theorem applied to
concrete requests against the family "m" with label set derived from the
key "a". -/
theorem claim1_schemaConsistency_witness :
    ((alistLookup (createLoop initialState "m"
        [⟨[("a", "x")], "5"⟩]).1.fams "m").map FamilyData.labelNames =
      some (getKeys [("a", "x")])) ∧
    (processCreateSample (createNewMetric initialState
        ⟨"m", [⟨[("a", "x")], "5"⟩]⟩).1 "m" ⟨[("b", "y")], "1"⟩ =
      ((createNewMetric initialState ⟨"m", [⟨[("a", "x")], "5"⟩]⟩).1, none,
        some MetricError.LabelSetMismatch)) ∧
    (processUpdateSample (createNewMetric initialState
        ⟨"m", [⟨[("a", "x")], "5"⟩]⟩).1 "m" ["a"] ⟨[("b", "y")], ""⟩ =
      ((createNewMetric initialState ⟨"m", [⟨[("a", "x")], "5"⟩]⟩).1, none,
        some MetricError.LabelSetMismatch)) :=
  ⟨claim1_schemaConsistency.1 initialState "m" ⟨[("a", "x")], "5"⟩ [] ⟨5, 1⟩
      (by decide) (by decide) (by decide) (by decide),
    (claim1_schemaConsistency.2.1 (createNewMetric initialState
        ⟨"m", [⟨[("a", "x")], "5"⟩]⟩).1 "m" ⟨["a"], [([("a", "x")], ⟨5, 1⟩)]⟩
        ⟨[("b", "y")], "1"⟩ [] ⟨1, 1⟩ (by decide) (by decide) (by decide)).1,
    (claim1_schemaConsistency.2.2 (createNewMetric initialState
        ⟨"m", [⟨[("a", "x")], "5"⟩]⟩).1 "m" ["a"] ⟨[("b", "y")], ""⟩ []
        (by decide)).1⟩

/-- Claim C2, counterexample to the claim as stated: the metric name "a:b"
violates the grammar the specification prescribes for validateToken, yet a
Create request for that name is accepted by the pipeline: the family is
registered, its counter is incremented, and a confirmation line is
returned, instead of the whole family failing with InvalidIdentifier. -/
theorem claim2_tokenGrammar_cex :
    validateToken "a:b" = false ∧
    (createNewMetric initialState ⟨"a:b", [⟨[], "1"⟩]⟩).2.1 =
      ["a:b\x7b\x7d 1\n"] ∧
    counterOf (createNewMetric initialState ⟨"a:b", [⟨[], "1"⟩]⟩).1 "a:b" [] =
      some ⟨1, 1⟩ := by decide

/-- Claim C2 (amended): identifier validation happens inside the client
library at registration time, against the Prometheus grammars rather than
the one the specification states: metric names may additionally contain
colons, and label keys must not begin with the reserved double
underscore.  A metric name failing that check aborts the whole family on
Create (no state change, no confirmation lines, every sample skipped),
and for a fresh name a sample leads to a registered family precisely when
the descriptor built from the name and its label keys is valid.  The
failure is logged, not surfaced as an InvalidIdentifier response. -/
theorem claim2_tokenValidation :
    (∀ (s : RegState) (f : MetricInfo),
      isValidMetricName f.name = false →
      alistLookup s.fams f.name = none →
      (createNewMetric s f).1 = s ∧ (createNewMetric s f).2.1 = []) ∧
    (∀ (s : RegState) (name : String) (item : Metric) (v : Value),
      alistLookup s.fams name = none →
      name ∉ s.registered →
      parseValue item.value = some v →
      ((alistLookup (processCreateSample s name item).1.fams name).isSome = true ↔
        validDesc name (getKeys item.labels) = true)) := by
  constructor
  · intro s f hn h
    exact createLoop_invalidName f.metrics s f.name hn h
  · intro s name item v h hr hv
    cases hd : validDesc name (getKeys item.labels) with
    | true =>
      rw [processCreateSample_fresh s name item v h hr hd hv]
      constructor
      · intro _
        rfl
      · intro _
        have hmap : (alistLookup (bumpCounter
            { registered := name :: s.registered,
              fams := alistInsert s.fams name ⟨getKeys item.labels, []⟩ }
            name item.labels v).fams name).map FamilyData.labelNames =
            some (getKeys item.labels) := by
          rw [bumpCounter_labelNames]
          show (alistLookup (alistInsert s.fams name ⟨getKeys item.labels, []⟩)
            name).map FamilyData.labelNames = _
          rw [alistLookup_alistInsert_self]
          rfl
        exact isSome_of_map_eq_some hmap
    | false =>
      have hres : processCreateSample s name item =
          (s, none, some MetricError.InvalidIdentifier) := by
        simp [processCreateSample, ensureFamily, h, hv, hd]
      rw [hres]
      show (alistLookup s.fams name).isSome = true ↔ _
      rw [h]
      simp

/-- Witness for claim C2: a Create for the invalid name "1bad" leaves the
state unchanged and returns no lines, and for the fresh valid name
"ok_name" the registration outcome coincides with descriptor validity. -/
theorem claim2_tokenValidation_witness :
    ((createNewMetric initialState ⟨"1bad", [⟨[], "1"⟩]⟩).1 = initialState ∧
      (createNewMetric initialState ⟨"1bad", [⟨[], "1"⟩]⟩).2.1 = []) ∧
    ((alistLookup (processCreateSample initialState "ok_name"
        ⟨[("l", "1")], "1"⟩).1.fams "ok_name").isSome = true ↔
      validDesc "ok_name" (getKeys [("l", "1")]) = true) :=
  ⟨claim2_tokenValidation.1 initialState ⟨"1bad", [⟨[], "1"⟩]⟩ (by decide) (by decide),
    claim2_tokenValidation.2 initialState "ok_name" ⟨[("l", "1")], "1"⟩ ⟨1, 1⟩
      (by decide) (by decide) (by decide)⟩

/-- Claim C3: Create is additive on the backing counter: for a sample of an
existing family whose label-key set matches and whose value parses to a
nonnegative number, the counter of that exact label vector becomes its old
value plus the parsed value (and, concretely, Create of "5" then "3" on
one label vector leaves the counter at 8).  The nonnegativity hypothesis
mirrors the contract of the Prometheus counter primitive, which rejects
negative increments. -/
theorem claim3_createAdditive :
    (∀ (s : RegState) (name : String) (fam : FamilyData) (item : Metric)
        (v old : Value),
      alistLookup s.fams name = some fam →
      parseValue item.value = some v →
      Value.Nonneg v →
      getKeys item.labels = fam.labelNames →
      counterOf s name item.labels = some old →
      counterOf (processCreateSample s name item).1 name item.labels =
        some (old.add v)) ∧
    counterOf (createNewMetric
        (createNewMetric initialState ⟨"m", [⟨[("a", "x")], "5"⟩]⟩).1
        ⟨"m", [⟨[("a", "x")], "3"⟩]⟩).1 "m" [("a", "x")] = some (intVal 8) := by
  constructor
  · intro s name fam item v old h hv hnn hk hold
    rw [processCreateSample_existing_match s name fam item v h hv hk]
    show counterOf (bumpCounter s name item.labels v) name item.labels = _
    rw [bumpCounter_counterOf s name item.labels v fam h, hold]
    rfl
  · decide

/-- Witness for claim C3: the additivity theorem applied to the family "m"
holding 5, receiving a Create sample of value "3" on the same vector. -/
theorem claim3_createAdditive_witness :
    counterOf (processCreateSample (createNewMetric initialState
        ⟨"m", [⟨[("a", "x")], "5"⟩]⟩).1 "m" ⟨[("a", "x")], "3"⟩).1
      "m" [("a", "x")] = some (Value.add ⟨5, 1⟩ ⟨3, 1⟩) :=
  claim3_createAdditive.1 (createNewMetric initialState
      ⟨"m", [⟨[("a", "x")], "5"⟩]⟩).1 "m" ⟨["a"], [([("a", "x")], ⟨5, 1⟩)]⟩
    ⟨[("a", "x")], "3"⟩ ⟨3, 1⟩ ⟨5, 1⟩ (by decide) (by decide) (by decide)
    (by decide) (by decide)

/-- Claim C4, counterexample to the claim as stated: after a Create of
value "0.5", an Update on the same vector increments the counter by
exactly one to 1.5, but the exposition line returned for the sample reads
2, which is not the post-increment total. -/
theorem claim4_roundedTotal_cex :
    (updateMetric (createNewMetric initialState
        ⟨"c", [⟨[("a", "x")], "0.5"⟩]⟩).1 ⟨"c", [⟨[("a", "x")], ""⟩]⟩).2.1 =
      ["c\x7ba=\"x\"\x7d 2\n"] ∧
    counterOf (updateMetric (createNewMetric initialState
        ⟨"c", [⟨[("a", "x")], "0.5"⟩]⟩).1 ⟨"c", [⟨[("a", "x")], ""⟩]⟩).1
      "c" [("a", "x")] = some ⟨15, 10⟩ ∧
    ¬ Value.eqInt ⟨15, 10⟩ 2 := by decide

/-- Claim C4 (amended): for every Update sample whose label-key set matches
the existing family exactly, the counter of that vector is incremented by
exactly one, independently of the sample's value field, and the returned
exposition line carries the post-increment total formatted at precision
zero, that is, rounded to the nearest integer with ties to even rather
than the exact total. -/
theorem claim4_updateUnitIncrement :
    ∀ (s : RegState) (name : String) (fam : FamilyData) (item : Metric)
      (w : String),
      alistLookup s.fams name = some fam →
      getKeys item.labels = fam.labelNames →
      counterOf (processUpdateSample s name fam.labelNames item).1 name
          item.labels =
        some (((counterOf s name item.labels).getD (intVal 0)).add (intVal 1)) ∧
      (processUpdateSample s name fam.labelNames item).2.1 =
        some (createMetricLine name item.labels
          (fmtF0 (((counterOf s name item.labels).getD (intVal 0)).add
            (intVal 1)))) ∧
      (processUpdateSample s name fam.labelNames item).2.2 = none ∧
      processUpdateSample s name fam.labelNames ⟨item.labels, w⟩ =
        processUpdateSample s name fam.labelNames item := by
  intro s name fam item w h hk
  have hpu : processUpdateSample s name fam.labelNames item =
      (bumpCounter s name item.labels (intVal 1),
       some (createMetricLine name item.labels
         (fmtF0 (((counterOf s name item.labels).getD (intVal 0)).add
           (intVal 1)))),
       none) := by
    simp [processUpdateSample, hk]
  refine ⟨?_, ?_, ?_, ?_⟩
  · rw [hpu]
    show counterOf (bumpCounter s name item.labels (intVal 1)) name item.labels = _
    rw [bumpCounter_counterOf s name item.labels (intVal 1) fam h]
  · rw [hpu]
  · rw [hpu]
  · cases item
    rfl

/-- Witness for claim C4: the unit-increment theorem applied to the family
"c" holding 0.5 on one vector; the counter moves to 1.5 and the line shows
the rounded total. -/
theorem claim4_updateUnitIncrement_witness :
    counterOf (processUpdateSample (createNewMetric initialState
        ⟨"c", [⟨[("a", "x")], "0.5"⟩]⟩).1 "c" ["a"] ⟨[("a", "x")], ""⟩).1
      "c" [("a", "x")] =
      some (((counterOf (createNewMetric initialState
        ⟨"c", [⟨[("a", "x")], "0.5"⟩]⟩).1 "c" [("a", "x")]).getD
          (intVal 0)).add (intVal 1)) ∧
    (processUpdateSample (createNewMetric initialState
        ⟨"c", [⟨[("a", "x")], "0.5"⟩]⟩).1 "c" ["a"] ⟨[("a", "x")], ""⟩).2.1 =
      some (createMetricLine "c" [("a", "x")]
        (fmtF0 (((counterOf (createNewMetric initialState
          ⟨"c", [⟨[("a", "x")], "0.5"⟩]⟩).1 "c" [("a", "x")]).getD
            (intVal 0)).add (intVal 1)))) ∧
    (processUpdateSample (createNewMetric initialState
        ⟨"c", [⟨[("a", "x")], "0.5"⟩]⟩).1 "c" ["a"] ⟨[("a", "x")], ""⟩).2.2 =
      none ∧
    processUpdateSample (createNewMetric initialState
        ⟨"c", [⟨[("a", "x")], "0.5"⟩]⟩).1 "c" ["a"] ⟨[("a", "x")], "9"⟩ =
      processUpdateSample (createNewMetric initialState
        ⟨"c", [⟨[("a", "x")], "0.5"⟩]⟩).1 "c" ["a"] ⟨[("a", "x")], ""⟩ :=
  claim4_updateUnitIncrement (createNewMetric initialState
      ⟨"c", [⟨[("a", "x")], "0.5"⟩]⟩).1 "c" ⟨["a"], [([("a", "x")], ⟨5, 10⟩)]⟩
    ⟨[("a", "x")], ""⟩ "9" (by decide) (by decide)

/-- Claim C5: an Update request naming a family that was never created
fails as a whole with the unknown-metric condition: no confirmation line
is produced, and the registry state is returned unchanged, whatever the
samples of the request are. -/
theorem claim5_updateUnknownMetric :
    ∀ (s : RegState) (f : MetricInfo),
      alistLookup s.fams f.name = none →
      updateMetric s f = (s, [], [MetricError.UnknownMetric]) := by
  intro s f h
  unfold updateMetric
  rw [h]

/-- Witness for claim C5: an Update naming "never_created" against the
initial state changes nothing and fails with the unknown-metric
condition. -/
theorem claim5_updateUnknownMetric_witness :
    updateMetric initialState ⟨"never_created", [⟨[("a", "x")], "1"⟩]⟩ =
      (initialState, [], [MetricError.UnknownMetric]) :=
  claim5_updateUnknownMetric initialState
    ⟨"never_created", [⟨[("a", "x")], "1"⟩]⟩ (by decide)

/-- Claim C6, counterexample to the claim as stated: with label keys "a"
and "a0" the encoder lists the pair of key "a0" before the pair of key
"a", although "a" precedes "a0" in ascending key order, because the code
sorts the fully rendered pair strings and the equals sign compares below a
digit.  The key-sorted rendering the specification describes differs. -/
theorem claim6_keyOrder_cex :
    createMetricLine "m" [("a", "x"), ("a0", "y")] "1" =
      "m\x7ba0=\"y\",a=\"x\"\x7d 1\n" ∧
    createMetricLineKeySorted "m" [("a", "x"), ("a0", "y")] "1" =
      "m\x7ba=\"x\",a0=\"y\"\x7d 1\n" ∧
    createMetricLine "m" [("a", "x"), ("a0", "y")] "1" ≠
      createMetricLineKeySorted "m" [("a", "x"), ("a0", "y")] "1" ∧
    strLe "a" "a0" ∧ ("a" : String) ≠ "a0" := by decide

/-- Claim C6 (amended): the encoder output is deterministic: it does not
depend on the iteration order of the label map, so encoding the same
family twice is byte-identical; the rendered label pairs appear sorted
ascending in the byte-wise string order of the full rendered pair (key,
equals sign, quoted value), which coincides with ascending key order
except when one key extends another with a digit; and the line is the
name, the sorted pairs joined by commas inside the brace block, a space
and the value. -/
theorem claim6_sortedEncoding :
    ∀ (name value : String) (labels labels' : List (String × String)),
      List.Perm labels labels' → value ≠ "" → labels ≠ [] →
      createMetricLine name labels value = createMetricLine name labels' value ∧
      List.Sorted strLe (sortStrings (labels.map renderPair)) ∧
      List.Perm (sortStrings (labels.map renderPair)) (labels.map renderPair) ∧
      createMetricLine name labels value =
        name ++ "\x7b" ++
          String.intercalate "," (sortStrings (labels.map renderPair)) ++
          "\x7d " ++ value ++ "\n" := by
  intro name value labels labels' hp hv hnil
  refine ⟨?_, sortStrings_sorted _, sortStrings_perm _, ?_⟩
  · simp only [createMetricLine]
    rw [sortStrings_congr (hp.map renderPair)]
  · simp only [createMetricLine]
    rw [if_pos hv]

/-- Witness for claim C6: the determinism and sortedness theorem applied
to the label map of the specification's own example, presented in two
different orders. -/
theorem claim6_sortedEncoding_witness :
    createMetricLine "requests_total" [("path", "/a"), ("code", "200")] "1" =
      createMetricLine "requests_total" [("code", "200"), ("path", "/a")] "1" ∧
    List.Sorted strLe (sortStrings
      ([("path", "/a"), ("code", "200")].map renderPair)) ∧
    List.Perm (sortStrings ([("path", "/a"), ("code", "200")].map renderPair))
      ([("path", "/a"), ("code", "200")].map renderPair) ∧
    createMetricLine "requests_total" [("path", "/a"), ("code", "200")] "1" =
      "requests_total" ++ "\x7b" ++
        String.intercalate ","
          (sortStrings ([("path", "/a"), ("code", "200")].map renderPair)) ++
        "\x7d " ++ "1" ++ "\n" :=
  claim6_sortedEncoding "requests_total" "1" [("path", "/a"), ("code", "200")]
    [("code", "200"), ("path", "/a")] (by decide) (by decide) (by decide)

/-- Claim C7, counterexample to the claim as stated: for an empty label
set the encoder still emits the brace block, producing a line with empty
braces rather than omitting the block. -/
theorem claim7_emptyBlock_cex :
    createMetricLine "metric_with_no_labels" [] "1" =
      "metric_with_no_labels\x7b\x7d 1\n" ∧
    createMetricLine "metric_with_no_labels" [] "1" ≠
      "metric_with_no_labels 1\n" := by decide

/-- Claim C7 (amended): for an empty label set the encoder keeps the brace
block: the emitted line is the name immediately followed by an empty brace
block, a space and the value. -/
theorem claim7_emptyLabelsBraces :
    ∀ (name value : String), value ≠ "" →
      createMetricLine name [] value = name ++ "\x7b\x7d " ++ value ++ "\n" := by
  intro name value hv
  simp only [createMetricLine]
  rw [if_pos hv]
  show name ++ "\x7b" ++ "" ++ "\x7d " ++ value ++ "\n" = _
  rw [String.append_empty, String.append_assoc name "\x7b" "\x7d "]
  rfl

/-- Witness for claim C7: the empty-label encoding theorem at the sample
request of the repository's own test script. -/
theorem claim7_emptyLabelsBraces_witness :
    createMetricLine "metric_with_no_labels" [] "7" =
      "metric_with_no_labels" ++ "\x7b\x7d " ++ "7" ++ "\n" :=
  claim7_emptyLabelsBraces "metric_with_no_labels" "7" (by decide)

/-- Claim C8, counterexample to the claim as stated: a Create request for
a family whose only sample fails to parse records nothing and changes no
state, yet the response still announces the family with the banner line
and contains no account of the failure. -/
theorem claim8_reporting_cex :
    createResponse initialState [⟨"m", [⟨[("a", "x")], "oops"⟩]⟩] =
      (initialState, "created metric...\n\n") := by decide

/-- Claim C8 (amended): each processed sample yields exactly one
confirmation line or exactly one recorded failure, so the returned lines
never overcount what was recorded; but the failures are only logged, not
included in the response, and the response prefixes every requested family
with the banner line even when all of its samples failed. -/
theorem claim8_successAccounting :
    (∀ (s : RegState) (name : String) (ms : List Metric),
      (createLoop s name ms).2.1.length + (createLoop s name ms).2.2.length =
        ms.length) ∧
    (∀ (s : RegState) (f : MetricInfo) (fs : List MetricInfo),
      (createResponse s (f :: fs)).2 =
        "created metric...\n" ++ String.join (createNewMetric s f).2.1 ++ "\n" ++
          (createResponse (createNewMetric s f).1 fs).2) ∧
    (∀ (s : RegState) (name : String) (labelNames : List String)
        (ms : List Metric),
      (updateLoop s name labelNames ms).2.1.length +
        (updateLoop s name labelNames ms).2.2.length = ms.length) := by
  refine ⟨?_, ?_, ?_⟩
  · intro s name ms
    exact createLoop_count ms s name
  · intro s f fs
    rfl
  · intro s name labelNames ms
    exact updateLoop_count ms s name labelNames

/-- Witness for claim C8: the accounting theorem applied to a two-sample
request with one failing sample, and to the response of a request naming
one family. -/
theorem claim8_successAccounting_witness :
    (createLoop initialState "m"
        [⟨[("a", "x")], "oops"⟩, ⟨[("a", "x")], "1"⟩]).2.1.length +
      (createLoop initialState "m"
        [⟨[("a", "x")], "oops"⟩, ⟨[("a", "x")], "1"⟩]).2.2.length =
      ([⟨[("a", "x")], "oops"⟩, ⟨[("a", "x")], "1"⟩] : List Metric).length ∧
    (createResponse initialState [⟨"m", [⟨[("a", "x")], "1"⟩]⟩]).2 =
      "created metric...\n" ++
        String.join (createNewMetric initialState
          ⟨"m", [⟨[("a", "x")], "1"⟩]⟩).2.1 ++ "\n" ++
        (createResponse (createNewMetric initialState
          ⟨"m", [⟨[("a", "x")], "1"⟩]⟩).1 []).2 ∧
    (updateLoop initialState "m" ["a"] [⟨[("b", "y")], ""⟩]).2.1.length +
      (updateLoop initialState "m" ["a"] [⟨[("b", "y")], ""⟩]).2.2.length =
      ([⟨[("b", "y")], ""⟩] : List Metric).length :=
  ⟨claim8_successAccounting.1 initialState "m"
      [⟨[("a", "x")], "oops"⟩, ⟨[("a", "x")], "1"⟩],
    claim8_successAccounting.2.1 initialState ⟨"m", [⟨[("a", "x")], "1"⟩]⟩ [],
    claim8_successAccounting.2.2 initialState "m" ["a"] [⟨[("b", "y")], ""⟩]⟩

/-- Claim C10: for a Create sample of an existing matching family whose
value string parses to a nonnegative number that is not an integer, the
backing counter is incremented by the exact parsed value, while the
confirmation line renders the value at precision zero, so the number the
caller reads differs from the amount recorded: no integer, in particular
not the rounded one on the line, equals the recorded increment. -/
theorem claim10_roundedConfirmation :
    ∀ (s : RegState) (name : String) (fam : FamilyData) (item : Metric)
      (v old : Value),
      alistLookup s.fams name = some fam →
      parseValue item.value = some v →
      Value.Nonneg v →
      v.num % (v.den : ℤ) ≠ 0 →
      getKeys item.labels = fam.labelNames →
      counterOf s name item.labels = some old →
      counterOf (processCreateSample s name item).1 name item.labels =
        some (old.add v) ∧
      (processCreateSample s name item).2.1 =
        some (createMetricLine name item.labels (fmtF0 v)) ∧
      ¬ Value.eqInt v (roundHalfEven v) := by
  intro s name fam item v old h hv hnn hni hk hold
  refine ⟨?_, ?_, ?_⟩
  · rw [processCreateSample_existing_match s name fam item v h hv hk]
    show counterOf (bumpCounter s name item.labels v) name item.labels = _
    rw [bumpCounter_counterOf s name item.labels v fam h, hold]
    rfl
  · rw [processCreateSample_existing_match s name fam item v h hv hk]
  · intro he
    exact hni (by rw [he]; exact Int.mul_emod_left _ _)

/-- Witness for claim C10: the rounding theorem applied to a Create of
value "2.5" on the family "m" already holding 1 on the vector. -/
theorem claim10_roundedConfirmation_witness :
    counterOf (processCreateSample (createNewMetric initialState
        ⟨"m", [⟨[("a", "x")], "1"⟩]⟩).1 "m" ⟨[("a", "x")], "2.5"⟩).1
      "m" [("a", "x")] = some (Value.add ⟨1, 1⟩ ⟨25, 10⟩) ∧
    (processCreateSample (createNewMetric initialState
        ⟨"m", [⟨[("a", "x")], "1"⟩]⟩).1 "m" ⟨[("a", "x")], "2.5"⟩).2.1 =
      some (createMetricLine "m" [("a", "x")] (fmtF0 ⟨25, 10⟩)) ∧
    ¬ Value.eqInt ⟨25, 10⟩ (roundHalfEven ⟨25, 10⟩) :=
  claim10_roundedConfirmation (createNewMetric initialState
      ⟨"m", [⟨[("a", "x")], "1"⟩]⟩).1 "m" ⟨["a"], [([("a", "x")], ⟨1, 1⟩)]⟩
    ⟨[("a", "x")], "2.5"⟩ ⟨25, 10⟩ ⟨1, 1⟩ (by decide) (by decide) (by decide)
    (by decide) (by decide) (by decide)

end Pingpong
